import Mathlib

/-!
# Verification of the EventTemplates repository

Shallow embedding of the event-hub classes of `src/EventTemplate.h`
(`CGlobalEvent`, `CEventSafe` with its RAII `Subscription` handle) and of the
delayed dispatcher of `src/CTimedEvent.h` (`CTimedEvent`, the signal-tolerant
`delay` helper and `launch_delayed`).

Modelling choices:
* A `std::function` value is modelled as `Option Nat`: `none` is a null/empty
  function object, `some l` is a callable function identified by the label `l`.
  Invoking `some l` with argument `a` is recorded as the pair `(l, a)`;
  attempting to invoke `none` models the `std::bad_function_call` exception.
* Mutex acquisition always succeeds and is not represented; the sequential
  semantics of each member function body is embedded directly.
* A detached thread that waits and then invokes a callback is modelled as a
  `SpawnedUnit` record: the label and argument it will invoke, the return
  value of the `delay` call it performs, and the number of milliseconds it
  actually waits before the invocation.
* The C++ `unsigned int` / `int` types are 32-bit; `unsigned int` values are
  naturals reduced mod 2^32, and the implicit unsigned-to-signed conversion at
  a call site is `intOfUInt32` (twos-complement wrap).
* A `Subscription` handle whose `std::weak_ptr` still locks to the live hub is
  modelled with `hasRef = true`; a default or moved-from handle has
  `hasRef = false`.  The hub state itself is threaded explicitly, so the
  destructor is `Subscription.destroy : Subscription → CEventSafe → CEventSafe`.
-/

set_option autoImplicit false

namespace EventTemplates

/-- A `std::function<void(Args...)>` value: `none` models a null/empty
function object, `some l` a callable one with label `l`. -/
abbrev Callback := Option Nat

/-! ## `delay` from `src/CTimedEvent.h`

```cpp
int delay(int nMs) {
    if (nMs < 0) return -1;
    struct timespec requested = {...};
    while (nanosleep(&requested, &requested) == -1 && errno == EINTR);
    return 0;
}
```
The retry-on-EINTR loop always completes the full wait, so the observable
behaviour is: return `-1` waiting 0 ms when `nMs < 0`, otherwise return `0`
after waiting `nMs` ms. -/

/-- Return value together with the wall-clock wait performed. -/
structure DelayResult where
  ret : Int
  waited : Nat
  deriving DecidableEq

def delay (nMs : Int) : DelayResult :=
  if nMs < 0 then ⟨-1, 0⟩ else ⟨0, nMs.toNat⟩

/-- The implicit conversion of a 32-bit `unsigned int` value to a 32-bit
signed `int` (twos-complement wrap), as happens at the call
`delay(delay_ms)` inside the thread body of `launch_delayed`. -/
def intOfUInt32 (n : Nat) : Int :=
  if n % 2 ^ 32 < 2 ^ 31 then ((n % 2 ^ 32 : Nat) : Int)
  else ((n % 2 ^ 32 : Nat) : Int) - 2 ^ 32

/-! ## `CTimedEvent` from `src/CTimedEvent.h` -/

/-- `struct TimedCallback { std::function<void(Args...)> func; unsigned int delay_ms; }` -/
structure TimedCallback where
  func : Callback
  delay_ms : Nat
  deriving DecidableEq

structure CTimedEvent where
  immediate_callbacks : List Callback
  delayed_callbacks : List TimedCallback
  deriving DecidableEq

def CTimedEvent.init : CTimedEvent := ⟨[], []⟩

/-- `subscribe`: append the callback to the immediate list (under lock). -/
def CTimedEvent.subscribe (e : CTimedEvent) (callback : Callback) : CTimedEvent :=
  { e with immediate_callbacks := e.immediate_callbacks ++ [callback] }

/-- `subscribe_with_delay(callback, delay_ms)`: append `{callback, delay_ms}`
to the delayed list.  The parameter is `unsigned int`, so its stored value is
the argument reduced mod 2^32 and can never be negative. -/
def CTimedEvent.subscribe_with_delay (e : CTimedEvent) (callback : Callback)
    (delay_ms : Nat) : CTimedEvent :=
  { e with delayed_callbacks := e.delayed_callbacks ++ [⟨callback, delay_ms % 2 ^ 32⟩] }

/-- One detached thread spawned by `launch_delayed`: it performs
`delay(delay_ms)` (recording the return value, which the thread body then
discards) and afterwards unconditionally invokes `bound_func()`, i.e. the
callback `label` with argument `arg`, having waited `waitedMs` milliseconds. -/
structure SpawnedUnit (α : Type) where
  label : Nat
  arg : α
  delayRet : Int
  waitedMs : Nat
  deriving DecidableEq

/-- `launch_delayed(callback, delay_ms, args...)`: binds `callback` to `args`
and detaches a thread running `delay(delay_ms); bound_func();`.  The
`unsigned int` argument `delay_ms` is implicitly converted to `int` at the
`delay` call. -/
def launch_delayed {α : Type} (callback : Nat) (delay_ms : Nat) (arg : α) :
    SpawnedUnit α :=
  let r := delay (intOfUInt32 delay_ms)
  ⟨callback, arg, r.ret, r.waited⟩

/-- `CTimedEvent::trigger(args...)`: first invokes every non-null immediate
callback in order (the synchronous calls, first component), then for every
delayed entry with a non-null `func` spawns one detached thread via
`launch_delayed` (second component).  The state is not mutated. -/
def CTimedEvent.trigger {α : Type} (e : CTimedEvent) (arg : α) :
    List (Nat × α) × List (SpawnedUnit α) :=
  (e.immediate_callbacks.filterMap (fun cb => cb.map (fun l => (l, arg))),
   e.delayed_callbacks.filterMap
     (fun tcb => tcb.func.map (fun l => launch_delayed l tcb.delay_ms arg)))

/-! ## `CGlobalEvent` from `src/EventTemplate.h` -/

structure CGlobalEvent where
  callbacks : List Callback
  deriving DecidableEq

def CGlobalEvent.init : CGlobalEvent := ⟨[]⟩

def CGlobalEvent.subscribe (e : CGlobalEvent) (callback : Callback) : CGlobalEvent :=
  ⟨e.callbacks ++ [callback]⟩

/-- `CGlobalEvent::trigger`: `for (...) if (callback) callback(args...)` —
null callbacks are skipped, the rest are invoked in order. -/
def CGlobalEvent.trigger {α : Type} (e : CGlobalEvent) (arg : α) : List (Nat × α) :=
  e.callbacks.filterMap (fun cb => cb.map (fun l => (l, arg)))

/-! ## `CEventSafe` from `src/EventTemplate.h` -/

/-- `struct CallbackEntry { int id; Callback callback; bool active; }` -/
structure CallbackEntry where
  id : Int
  callback : Callback
  active : Bool
  deriving DecidableEq

structure CEventSafe where
  needsCleanup : Bool
  nextId : Int
  callbacks : List CallbackEntry
  deriving DecidableEq

def CEventSafe.init : CEventSafe := ⟨false, 0, []⟩

/-- `CEventSafe::subscribe`: `int id = nextId_++;` then push an active entry;
returns the new state together with the id the returned `Subscription` handle
is bound to.  No cleanup pass is performed here. -/
def CEventSafe.subscribe (e : CEventSafe) (callback : Callback) :
    CEventSafe × Int :=
  ({ e with
      nextId := e.nextId + 1,
      callbacks := e.callbacks ++ [⟨e.nextId, callback, true⟩] },
   e.nextId)

/-- The cleanup pass at the top of `CEventSafe::trigger`: if `needsCleanup_`,
erase-remove every inactive entry and clear the flag. -/
def cleanupPass (e : CEventSafe) : CEventSafe :=
  if e.needsCleanup then
    { e with callbacks := e.callbacks.filter (fun en => en.active),
             needsCleanup := false }
  else e

/-- The snapshot `activeEntries` taken under the lock in `CEventSafe::trigger`:
all still-active entries of the (possibly just cleaned) list, in order. -/
def activeSnapshot (e : CEventSafe) : List CallbackEntry :=
  (cleanupPass e).callbacks.filter (fun en => en.active)

/-- Result of the invocation loop of a trigger: the invocations performed (in
order), and whether a `std::bad_function_call` was thrown (which aborts the
remaining invocations). -/
structure TriggerResult (α : Type) where
  calls : List (Nat × α)
  threw : Bool
  deriving DecidableEq

/-- The loop `for (auto& entry : activeEntries) entry->callback(args...);` of
`CEventSafe::trigger`.  Note there is NO null check here: invoking a null
`std::function` throws `std::bad_function_call`, aborting the loop. -/
def invokeEntries {α : Type} (arg : α) : List CallbackEntry → TriggerResult α
  | [] => ⟨[], false⟩
  | en :: rest =>
    match en.callback with
    | none => ⟨[], true⟩
    | some l =>
      let r := invokeEntries arg rest
      ⟨(l, arg) :: r.calls, r.threw⟩

/-- `CEventSafe::trigger(args...)`: under the lock, run the cleanup pass and
snapshot the active entries; then, lock released, invoke the callback of each snapshot entry
callback.  Returns the post-trigger state and the invocation record. -/
def CEventSafe.trigger {α : Type} (e : CEventSafe) (arg : α) :
    CEventSafe × TriggerResult α :=
  (cleanupPass e, invokeEntries arg (activeSnapshot e))

/-- `std::find_if` on id, then `(*it)->active = false` — marks the FIRST entry
whose id matches, returning `none` when no entry matches. -/
def markInactiveFirst (i : Int) : List CallbackEntry → Option (List CallbackEntry)
  | [] => none
  | en :: rest =>
    if en.id = i then some ({ en with active := false } :: rest)
    else (markInactiveFirst i rest).map (fun l => en :: l)

/-- `CEventSafe::unsubscribe(id)`: if an entry with this id exists, mark it
inactive and set `needsCleanup_`; otherwise do nothing.  Never erases. -/
def CEventSafe.unsubscribe (e : CEventSafe) (i : Int) : CEventSafe :=
  match markInactiveFirst i e.callbacks with
  | some cbs => { e with callbacks := cbs, needsCleanup := true }
  | none => e

/-! ## `CEventSafe::Subscription` -/

/-- The RAII handle.  `hasRef = true` models a `weak_ptr` that still locks to
the (live) hub; a moved-from or empty handle has `hasRef = false` and the
sentinel id `-1`. -/
structure Subscription where
  hasRef : Bool
  id : Int
  deriving DecidableEq

/-- `~Subscription()`: `if (auto event = event_.lock()) event->unsubscribe(id_);` -/
def Subscription.destroy (s : Subscription) (e : CEventSafe) : CEventSafe :=
  if s.hasRef then e.unsubscribe s.id else e

/-- Move constructor: steals `event_` (leaving the `weak_ptr` of the source empty)
and the id, and sets the source id to `-1`.  Returns (new handle, moved-from
source). -/
def Subscription.moveCtor (other : Subscription) : Subscription × Subscription :=
  (⟨other.hasRef, other.id⟩, ⟨false, -1⟩)

/-- Move assignment `target = std::move(source)` for distinct objects (the
`this != &other` guard excludes self-move): `event_ = std::move(other.event_);
id_ = other.id_; other.id_ = -1;`.  The previous target `event_`/`id_` are
simply overwritten — no `unsubscribe` call is made for them, and the hub state
is not touched at all (the function does not take or return a hub).  Returns
(new target, moved-from source). -/
def Subscription.moveAssign (_target source : Subscription) :
    Subscription × Subscription :=
  (⟨source.hasRef, source.id⟩, ⟨false, -1⟩)

/-! ## Helper lemmas -/

/-- The snapshot is the active entries of the stored list, whether or not a
cleanup pass ran first: cleaning (filtering the active entries) and then
filtering again is the same as filtering once. -/
theorem activeSnapshot_eq (e : CEventSafe) :
    activeSnapshot e = e.callbacks.filter (fun en => en.active) := by
  unfold activeSnapshot cleanupPass
  by_cases h : e.needsCleanup = true
  · simp [h, List.filter_filter]
  · simp [h]

/-- When every entry in the list has a callable (non-null) callback, the
invocation loop completes without throwing and performs exactly one call per
entry, in list order, with the trigger argument. -/
theorem invokeEntries_all_some {α : Type} (arg : α) (ll : List CallbackEntry)
    (h : ∀ en ∈ ll, en.callback.isSome = true) :
    invokeEntries arg ll =
      ⟨ll.map (fun en => (en.callback.getD 0, arg)), false⟩ := by
  induction ll with
  | nil => rfl
  | cons en rest ih =>
    have hen := h en (List.mem_cons_self _ _)
    cases hcb : en.callback with
    | none => rw [hcb] at hen; simp at hen
    | some l =>
      have ih2 := ih (fun x hx => h x (List.mem_cons_of_mem _ hx))
      simp [invokeEntries, hcb, ih2]

/-- Every call the invocation loop performs comes from some entry of the list
whose callback carries that label, and carries the trigger argument. -/
theorem invokeEntries_calls_sound {α : Type} (arg : α) (ll : List CallbackEntry) :
    ∀ c ∈ (invokeEntries arg ll).calls,
      ∃ en ∈ ll, en.callback = some c.1 ∧ c.2 = arg := by
  induction ll with
  | nil => intro c hc; simp [invokeEntries] at hc
  | cons en rest ih =>
    intro c hc
    cases hcb : en.callback with
    | none => simp [invokeEntries, hcb] at hc
    | some l =>
      simp only [invokeEntries, hcb] at hc
      rcases List.mem_cons.mp hc with h | h
      · exact ⟨en, List.mem_cons_self _ _, by rw [hcb, h], by rw [h]⟩
      · obtain ⟨x, hx, h1, h2⟩ := ih c h
        exact ⟨x, List.mem_cons_of_mem _ hx, h1, h2⟩

/-- The invocation loop throws `std::bad_function_call` exactly when some
entry of the list holds a null callback. -/
theorem invokeEntries_threw_iff {α : Type} (arg : α) (ll : List CallbackEntry) :
    (invokeEntries arg ll).threw = true ↔ ∃ en ∈ ll, en.callback = none := by
  induction ll with
  | nil => simp [invokeEntries]
  | cons en rest ih =>
    cases hcb : en.callback with
    | none => simp [invokeEntries, hcb]
    | some l => simp [invokeEntries, hcb, ih]

/-- If every entry of the list is callable and some entry carries the label,
the invocation loop performs the corresponding call. -/
theorem mem_invoke_calls {α : Type} (arg : α) (ll : List CallbackEntry) (l : Nat)
    (hsome : ∀ en ∈ ll, en.callback.isSome = true)
    (hmem : ∃ en ∈ ll, en.callback = some l) :
    (l, arg) ∈ (invokeEntries arg ll).calls := by
  obtain ⟨en, h1, h2⟩ := hmem
  rw [invokeEntries_all_some arg ll hsome]
  exact List.mem_map.mpr ⟨en, h1, by simp [h2]⟩

/-- `find_if` fails exactly when no entry has the id. -/
theorem markInactiveFirst_eq_none_iff (i : Int) (ll : List CallbackEntry) :
    markInactiveFirst i ll = none ↔ ∀ en ∈ ll, en.id ≠ i := by
  induction ll with
  | nil => simp [markInactiveFirst]
  | cons en rest ih =>
    by_cases h : en.id = i
    · simp [markInactiveFirst, h]
    · simp [markInactiveFirst, h, ih]

/-- When no earlier entry has the id and the appended entry does, marking
tombstones exactly the appended entry. -/
theorem markInactiveFirst_append_fresh (i : Int) (xs : List CallbackEntry)
    (y : CallbackEntry) (hxs : ∀ x ∈ xs, x.id ≠ i) (hy : y.id = i) :
    markInactiveFirst i (xs ++ [y]) =
      some (xs ++ [{ y with active := false }]) := by
  induction xs with
  | nil => simp [markInactiveFirst, hy]
  | cons x rest ih =>
    have hx := hxs x (List.mem_cons_self _ _)
    simp [markInactiveFirst, hx,
      ih (fun z hz => hxs z (List.mem_cons_of_mem _ hz))]

/-- Marking never changes the number of stored entries. -/
theorem markInactiveFirst_length (i : Int) (ll : List CallbackEntry) :
    ∀ res, markInactiveFirst i ll = some res → res.length = ll.length := by
  induction ll with
  | nil => intro res h; simp [markInactiveFirst] at h
  | cons en rest ih =>
    intro res h
    by_cases hid : en.id = i
    · simp only [markInactiveFirst, if_pos hid, Option.some.injEq] at h
      subst h; simp
    · simp only [markInactiveFirst, if_neg hid, Option.map_eq_some'] at h
      obtain ⟨res2, h1, h2⟩ := h
      subst h2; simpa using ih res2 h1

/-- Marking the same id twice gives the same list as marking it once. -/
theorem markInactiveFirst_idem (i : Int) (ll : List CallbackEntry) :
    ∀ res, markInactiveFirst i ll = some res →
      markInactiveFirst i res = some res := by
  induction ll with
  | nil => intro res h; simp [markInactiveFirst] at h
  | cons en rest ih =>
    intro res h
    by_cases hid : en.id = i
    · simp only [markInactiveFirst, if_pos hid, Option.some.injEq] at h
      subst h
      simp [markInactiveFirst, hid]
    · simp only [markInactiveFirst, if_neg hid, Option.map_eq_some'] at h
      obtain ⟨res2, h1, h2⟩ := h
      subst h2
      simp [markInactiveFirst, if_neg hid, ih res2 h1]

/-- Entries with a different id are untouched by marking. -/
theorem markInactiveFirst_filter_ne (i : Int) (ll : List CallbackEntry) :
    ∀ res, markInactiveFirst i ll = some res →
      res.filter (fun en => en.id != i) = ll.filter (fun en => en.id != i) := by
  induction ll with
  | nil => intro res h; simp [markInactiveFirst] at h
  | cons en rest ih =>
    intro res h
    by_cases hid : en.id = i
    · simp only [markInactiveFirst, if_pos hid, Option.some.injEq] at h
      subst h
      simp [List.filter_cons, hid]
    · simp only [markInactiveFirst, if_neg hid, Option.map_eq_some'] at h
      obtain ⟨res2, h1, h2⟩ := h
      subst h2
      simp [List.filter_cons, hid, ih res2 h1]

/-- With pairwise-distinct ids, the active entries after marking id `i` are
exactly the active entries other than the one with id `i`. -/
theorem markInactiveFirst_filter_active (i : Int) (ll : List CallbackEntry) :
    ∀ res, (ll.map (fun en => en.id)).Nodup →
      markInactiveFirst i ll = some res →
      res.filter (fun en => en.active) =
        ll.filter (fun en => en.active && en.id != i) := by
  induction ll with
  | nil => intro res _ h; simp [markInactiveFirst] at h
  | cons en rest ih =>
    intro res hnd h
    rw [List.map_cons, List.nodup_cons] at hnd
    by_cases hid : en.id = i
    · simp only [markInactiveFirst, if_pos hid, Option.some.injEq] at h
      subst h
      have hrest : ∀ x ∈ rest, x.id ≠ i := by
        intro x hx heq
        exact hnd.1 (by rw [hid, ← heq]; exact List.mem_map_of_mem _ hx)
      have hcong : rest.filter (fun en => en.active && en.id != i) =
          rest.filter (fun en => en.active) := by
        apply List.filter_congr
        intro x hx
        simp [hrest x hx]
      simp [List.filter_cons, hid, hcong]
    · simp only [markInactiveFirst, if_neg hid, Option.map_eq_some'] at h
      obtain ⟨res2, h1, h2⟩ := h
      subst h2
      rw [List.filter_cons, List.filter_cons]
      have hb : (en.id != i) = true := by simp [hid]
      rw [hb, Bool.and_true]
      by_cases ha : en.active = true
      · simp [ha, ih res2 hnd.2 h1]
      · simp [ha, ih res2 hnd.2 h1]

/-! ## Claim theorems -/

/-- Claim C6: immediate dispatch invokes callbacks in subscription order with
the trigger arguments.  After subscribing A, B, C in that order on a fresh
`CEventSafe` hub, on a fresh `CTimedEvent` dispatcher (immediate list), and on
a fresh `CGlobalEvent` hub, `trigger(arg)` produces exactly the synchronous
call sequence A(arg), B(arg), C(arg), in that order, without throwing. -/
theorem C6_subscription_order_is_invocation_order {α : Type} (a b c : Nat) (arg : α) :
    ((((CEventSafe.init.subscribe (some a)).1.subscribe (some b)).1.subscribe
        (some c)).1.trigger arg).2 = ⟨[(a, arg), (b, arg), (c, arg)], false⟩
  ∧ ((((CTimedEvent.init.subscribe (some a)).subscribe (some b)).subscribe
        (some c)).trigger arg).1 = [(a, arg), (b, arg), (c, arg)]
  ∧ (((CGlobalEvent.init.subscribe (some a)).subscribe (some b)).subscribe
        (some c)).trigger arg = [(a, arg), (b, arg), (c, arg)] :=
  ⟨rfl, rfl, rfl⟩

/-- Claim C1 (evaluation at the failing input): register a delayed callback
whose effective delay is negative (stored `delay_ms = 2^31` converts to the
negative int `-2^31` at the `delay(delay_ms)` call) and trigger.  The `delay`
helper does report failure (returns `-1` after waiting 0 ms), but
`launch_delayed` discards that return value: the spawned thread still invokes
the callback, immediately (0 ms waited), and `trigger` surfaces no error —
exactly the silent immediate unflagged invocation the claim forbids. -/
theorem C1_negative_effective_delay_fires_immediately :
    delay (intOfUInt32 (2 ^ 31)) = ⟨-1, 0⟩
  ∧ ((CTimedEvent.init.subscribe_with_delay (some 0) (2 ^ 31)).trigger
      (0 : Nat)).2 = [⟨0, 0, -1, 0⟩] :=
  ⟨by decide, by decide⟩

/-- Claim C2, counterexample: the claim states that for EVERY hub a null
callback registered via subscribe is skipped at invocation time, with trigger
neither invoking it nor failing, and all other callbacks still invoked.  On
`CEventSafe` this is false: its trigger loop has no null check.  Concretely,
after subscribing a null callback and then a valid callback (label 1) on a
fresh `CEventSafe` hub, `trigger` throws `std::bad_function_call` and the
valid callback is never invoked (empty call list). -/
theorem C2_counterexample_null_not_skipped_in_CEventSafe :
    ((((CEventSafe.init.subscribe none).1.subscribe (some 1)).1.trigger
        (0 : Nat)).2) = ⟨[], true⟩ := by
  decide

/-- Claim C2 as amended: a null callback is skipped defensively at invocation
time by `CGlobalEvent::trigger` and by `CTimedEvent::trigger` (the other
registered callbacks are invoked exactly as if the null entry were absent);
`CEventSafe::trigger`, however, invokes the callback of every active entry
without a null check, so an active null entry makes the trigger invocation
loop throw `std::bad_function_call` instead of being skipped. -/
theorem C2_null_skipped_by_CGlobalEvent_not_by_CEventSafe {α : Type}
    (pre post : List Callback) (arg : α) :
    (CGlobalEvent.trigger ⟨pre ++ [none] ++ post⟩ arg
      = CGlobalEvent.trigger ⟨pre ++ post⟩ arg)
  ∧ (∀ ts : List TimedCallback,
      (CTimedEvent.trigger ⟨pre ++ [none] ++ post, ts⟩ arg).1
        = (CTimedEvent.trigger ⟨pre ++ post, ts⟩ arg).1)
  ∧ (∀ e : CEventSafe, (∃ en ∈ activeSnapshot e, en.callback = none) →
      (e.trigger arg).2.threw = true) := by
  refine ⟨?_, ?_, ?_⟩
  · simp [CGlobalEvent.trigger]
  · intro ts; simp [CTimedEvent.trigger]
  · intro e he
    have h := (invokeEntries_threw_iff arg (activeSnapshot e)).mpr he
    simpa [CEventSafe.trigger] using h

/-- Witness for the amended C2, at concrete inputs: a null callback between
labels 7 and 8 on a `CGlobalEvent` hub changes nothing, and a hub
`CEventSafe` holding an active null entry throws on trigger. -/
theorem C2_null_skipped_witness :
    (CGlobalEvent.trigger ⟨[some 7] ++ [none] ++ [some 8]⟩ (0 : Nat)
      = CGlobalEvent.trigger ⟨[some 7] ++ [some 8]⟩ (0 : Nat))
  ∧ (((CEventSafe.init.subscribe none).1.trigger (0 : Nat)).2.threw = true) :=
  by
  constructor
  · exact (C2_null_skipped_by_CGlobalEvent_not_by_CEventSafe [some 7] [some 8] (0 : Nat)).1
  · apply (C2_null_skipped_by_CGlobalEvent_not_by_CEventSafe [some 7] [some 8] (0 : Nat)).2.2
      (CEventSafe.init.subscribe none).1
    exact ⟨⟨0, none, true⟩, by decide, rfl⟩

/-- Claim C3, counterexample: the claim states that once every entry is
tombstoned, the very next call to EITHER subscribe OR trigger physically
removes all inactive entries.  False for subscribe: `CEventSafe::subscribe`
performs no cleanup pass.  Concretely, subscribe a callback on a fresh hub,
drop its handle (tombstoning the only entry), then subscribe again: the
tombstoned entry is still stored (one inactive entry remains, not zero). -/
theorem C3_counterexample_subscribe_performs_no_cleanup :
    (((Subscription.destroy ⟨true, 0⟩
          (CEventSafe.init.subscribe (some 0)).1).subscribe (some 1)).1.callbacks.filter
        (fun en => !en.active)).length = 1 := by
  decide

/-- Claim C3 as amended: after every handle has been dropped (every entry
tombstoned, which also set the cleanup flag), the very next call to TRIGGER
physically removes all inactive entries — the stored list becomes empty and
nothing is invoked — whereas subscribe performs no cleanup at all (it appends
its new active entry and leaves every stored inactive entry in place), so the
cleanup lag is bounded by one subsequent trigger call, not by one
subscribe-or-trigger call. -/
theorem C3_cleanup_happens_on_next_trigger {α : Type} (e : CEventSafe) (arg : α)
    (hall : ∀ en ∈ e.callbacks, en.active = false)
    (hflag : e.needsCleanup = true ∨ e.callbacks = []) :
    ((e.trigger arg).1.callbacks = [] ∧ (e.trigger arg).2 = ⟨[], false⟩)
  ∧ (∀ cb : Callback,
      (e.subscribe cb).1.callbacks.filter (fun en => !en.active)
        = e.callbacks.filter (fun en => !en.active)) := by
  constructor
  · have hfil : e.callbacks.filter (fun en => en.active) = [] := by
      rw [List.filter_eq_nil_iff]
      intro en hen
      simp [hall en hen]
    have hcb : (cleanupPass e).callbacks = [] := by
      unfold cleanupPass
      rcases hflag with h | h
      · simp [h, hfil]
      · by_cases hn : e.needsCleanup = true <;> simp [hn, h]
    have hsnap : activeSnapshot e = [] := by
      unfold activeSnapshot
      rw [hcb]
      rfl
    constructor
    · show (cleanupPass e).callbacks = []
      exact hcb
    · show invokeEntries arg (activeSnapshot e) = ⟨[], false⟩
      rw [hsnap]
      rfl
  · intro cb
    show (e.callbacks ++ [(⟨e.nextId, cb, true⟩ : CallbackEntry)]).filter (fun en => !en.active)
      = e.callbacks.filter (fun en => !en.active)
    simp [List.filter_append]

/-- Witness for the amended C3, at a concrete input: a hub whose single entry
is tombstoned (cleanup flag set) is emptied by the next trigger, and a
subscribe on it keeps the tombstoned entry stored. -/
theorem C3_cleanup_happens_on_next_trigger_witness :
    (((⟨true, 1, [⟨0, some 0, false⟩]⟩ : CEventSafe).trigger (0 : Nat)).1.callbacks = []
      ∧ ((⟨true, 1, [⟨0, some 0, false⟩]⟩ : CEventSafe).trigger (0 : Nat)).2 = ⟨[], false⟩)
  ∧ (∀ cb : Callback,
      ((⟨true, 1, [⟨0, some 0, false⟩]⟩ : CEventSafe).subscribe cb).1.callbacks.filter
          (fun en => !en.active)
        = (⟨true, 1, [⟨0, some 0, false⟩]⟩ : CEventSafe).callbacks.filter
            (fun en => !en.active)) :=
  C3_cleanup_happens_on_next_trigger (⟨true, 1, [⟨0, some 0, false⟩]⟩ : CEventSafe)
    (0 : Nat) (by decide) (Or.inl rfl)

/-- Claim C10: `subscribe_with_delay` takes the delay as `unsigned int`, so a
negative delay cannot be expressed at registration (the stored value is a
natural number); but for every registered `delay_ms` exceeding `2^31 - 1`,
the implicit unsigned-to-signed conversion at the call `delay(delay_ms)`
yields a negative `int`, `delay` returns `-1` without waiting, and the
callback is invoked immediately on the spawned execution unit (0 ms waited)
instead of after the requested wait: triggering after such a registration
spawns exactly one extra unit, carrying the callback and the trigger
argument, with `delay` return `-1` and wait `0`. -/
theorem C10_unsigned_overflow_yields_negative_delay {α : Type} (d l : Nat)
    (arg : α) (e : CTimedEvent) (h1 : 2 ^ 31 ≤ d) (h2 : d < 2 ^ 32) :
    intOfUInt32 d < 0
  ∧ delay (intOfUInt32 d) = ⟨-1, 0⟩
  ∧ ((e.subscribe_with_delay (some l) d).trigger arg).2
      = (e.trigger arg).2 ++ [⟨l, arg, -1, 0⟩] := by
  have hm : d % 2 ^ 32 = d := Nat.mod_eq_of_lt h2
  have hneg : intOfUInt32 d = (d : Int) - 2 ^ 32 := by
    unfold intOfUInt32
    rw [hm, if_neg (Nat.not_lt.mpr h1)]
  have hlt : intOfUInt32 d < 0 := by
    rw [hneg]
    have hc : (d : Int) < 2 ^ 32 := by exact_mod_cast h2
    omega
  have hd : delay (intOfUInt32 d) = ⟨-1, 0⟩ := by
    unfold delay
    rw [if_pos hlt]
  refine ⟨hlt, hd, ?_⟩
  show ((e.subscribe_with_delay (some l) d).delayed_callbacks.filterMap
      (fun tcb => tcb.func.map (fun x => launch_delayed x tcb.delay_ms arg)))
    = (e.delayed_callbacks.filterMap
        (fun tcb => tcb.func.map (fun x => launch_delayed x tcb.delay_ms arg)))
      ++ [⟨l, arg, -1, 0⟩]
  have hsub : (e.subscribe_with_delay (some l) d).delayed_callbacks
      = e.delayed_callbacks ++ [⟨some l, d⟩] := by
    show e.delayed_callbacks ++ [(⟨some l, d % 2 ^ 32⟩ : TimedCallback)] = _
    rw [hm]
  rw [hsub, List.filterMap_append]
  have hlaunch : launch_delayed l d arg = ⟨l, arg, -1, 0⟩ := by
    simp only [launch_delayed]
    rw [hd]
  simp [hlaunch]

/-- Witness for C10, at the concrete input `delay_ms = 2^31`. -/
theorem C10_unsigned_overflow_yields_negative_delay_witness :
    (2 ^ 31 ≤ 2 ^ 31) ∧ (2 ^ 31 < 2 ^ 32)
  ∧ (intOfUInt32 (2 ^ 31) < 0
      ∧ delay (intOfUInt32 (2 ^ 31)) = ⟨-1, 0⟩
      ∧ ((CTimedEvent.init.subscribe_with_delay (some 5) (2 ^ 31)).trigger
            (7 : Nat)).2
          = (CTimedEvent.init.trigger (7 : Nat)).2 ++ [⟨5, 7, -1, 0⟩]) :=
  ⟨by norm_num, by norm_num,
   C10_unsigned_overflow_yields_negative_delay (2 ^ 31) 5 (7 : Nat)
     CTimedEvent.init (by norm_num) (by norm_num)⟩

/-- The synchronous calls of a `CTimedEvent::trigger` never carry a label
that is not among the immediate callbacks. -/
theorem immediate_calls_labels {α : Type} (arg : α) (cbs : List Callback)
    (l : Nat) (h : (some l : Callback) ∉ cbs) :
    ((cbs.filterMap (fun cb => cb.map (fun x => (x, arg)))).all
      (fun c => c.1 != l)) = true := by
  rw [List.all_eq_true]
  intro c hc
  obtain ⟨cb, hcb, hmap⟩ := List.mem_filterMap.mp hc
  cases cb with
  | none => simp at hmap
  | some x =>
    simp only [Option.map_some', Option.some.injEq] at hmap
    subst hmap
    simp only [bne_iff_ne, ne_eq]
    intro heq
    exact h (by rw [← heq]; exact hcb)

/-- The label a spawned unit invokes is the callback `launch_delayed` was
given. -/
theorem launch_delayed_label {α : Type} (cb d : Nat) (arg : α) :
    (launch_delayed cb d arg).label = cb := rfl

/-- The spawned units of a `CTimedEvent::trigger` that invoke label `l` are
exactly one per delayed entry whose callback is `l`, each produced by
`launch_delayed` with the registered delay. -/
theorem spawned_units_for_label {α : Type} (arg : α) (ts : List TimedCallback)
    (l : Nat) :
    (ts.filterMap (fun tcb => tcb.func.map
        (fun x => launch_delayed x tcb.delay_ms arg))).filter
      (fun u => u.label == l)
      = (ts.filter (fun t => t.func == some l)).map
          (fun t => launch_delayed l t.delay_ms arg) := by
  induction ts with
  | nil => rfl
  | cons t rest ih =>
    cases hf : t.func with
    | none => simp [hf, ih, List.filterMap_cons, List.filter_cons, beq_iff_eq]
    | some x =>
      by_cases hx : x = l
      · subst hx
        simp [hf, ih, List.filterMap_cons, List.filter_cons,
          launch_delayed_label, beq_iff_eq]
      · simp [hf, hx, ih, List.filterMap_cons, List.filter_cons,
          launch_delayed_label, beq_iff_eq]

/-- Claim C8: after `subscribe_with_delay(cb, 100)` (the dispatcher holding
exactly one delayed registration of `cb`, and no immediate registration of
it), a `trigger` call does not invoke `cb` among its synchronous calls on the
triggering thread; instead exactly one spawned execution unit (a detached
thread, distinct from the triggering thread by construction) invokes `cb`
with the trigger argument after waiting 100 time-units (`delay` returning 0,
success). -/
theorem C8_delayed_callback_fires_once_after_100 {α : Type} (e : CTimedEvent)
    (l : Nat) (arg : α)
    (him : (some l : Callback) ∉ e.immediate_callbacks)
    (hdl : e.delayed_callbacks.filter (fun t => t.func == some l)
      = [⟨some l, 100⟩]) :
    ((e.trigger arg).1.all (fun c => c.1 != l) = true)
  ∧ ((e.trigger arg).2.filter (fun u => u.label == l) = [⟨l, arg, 0, 100⟩]) := by
  constructor
  · exact immediate_calls_labels arg e.immediate_callbacks l him
  · show ((e.delayed_callbacks.filterMap (fun tcb => tcb.func.map
        (fun x => launch_delayed x tcb.delay_ms arg))).filter
      (fun u => u.label == l)) = _
    rw [spawned_units_for_label, hdl]
    have hlaunch : launch_delayed l 100 arg = ⟨l, arg, 0, 100⟩ := by
      unfold launch_delayed delay intOfUInt32
      norm_num
      rfl
    simp [hlaunch]

/-- Witness for C8, at concrete inputs: immediate callback 3, delayed
callback 7 with delay 100. -/
theorem C8_delayed_callback_fires_once_after_100_witness :
    ((((⟨[some 3], [⟨some 7, 100⟩]⟩ : CTimedEvent).trigger (1 : Nat)).1.all
        (fun c => c.1 != 7)) = true)
  ∧ (((⟨[some 3], [⟨some 7, 100⟩]⟩ : CTimedEvent).trigger (1 : Nat)).2.filter
        (fun u => u.label == 7) = [⟨7, 1, 0, 100⟩]) :=
  C8_delayed_callback_fires_once_after_100 (⟨[some 3], [⟨some 7, 100⟩]⟩ : CTimedEvent)
    7 (1 : Nat) (by decide) (by decide)

/-- Claim C7: `unsubscribe(i)` marks the matching entry inactive and sets the
cleanup flag without physically removing anything (the stored entry count is
unchanged); an unknown id is a no-op; a repeated unsubscribe of the same id is
a no-op (idempotent); entries with any other id are left byte-for-byte
unchanged; and, with the (invariant) pairwise-distinct ids, the active
snapshot that subsequent triggers invoke consists exactly of the active
entries other than the unsubscribed one — every other active listener is
still invoked. -/
theorem C7_unsubscribe_is_tombstone_and_idempotent (e : CEventSafe) (i : Int) :
    ((e.unsubscribe i).callbacks.length = e.callbacks.length)
  ∧ ((∀ en ∈ e.callbacks, en.id ≠ i) → e.unsubscribe i = e)
  ∧ ((e.unsubscribe i).unsubscribe i = e.unsubscribe i)
  ∧ ((∃ en ∈ e.callbacks, en.id = i) → (e.unsubscribe i).needsCleanup = true
      ∧ ((e.callbacks.map (fun en => en.id)).Nodup →
          ∀ en ∈ (e.unsubscribe i).callbacks, en.id = i → en.active = false))
  ∧ ((e.unsubscribe i).callbacks.filter (fun en => en.id != i)
      = e.callbacks.filter (fun en => en.id != i))
  ∧ ((e.callbacks.map (fun en => en.id)).Nodup →
      activeSnapshot (e.unsubscribe i)
        = (activeSnapshot e).filter (fun en => en.id != i)) := by
  rcases hm : markInactiveFirst i e.callbacks with - | res
  · have hnone : e.unsubscribe i = e := by
      unfold CEventSafe.unsubscribe
      rw [hm]
    have hnoid : ∀ en ∈ e.callbacks, en.id ≠ i :=
      (markInactiveFirst_eq_none_iff i e.callbacks).mp hm
    refine ⟨by rw [hnone], fun _ => hnone, by rw [hnone, hnone], ?_, ?_, ?_⟩
    · intro hex
      obtain ⟨en, hen, hid⟩ := hex
      exact absurd hid (hnoid en hen)
    · rw [hnone]
    · intro _
      rw [hnone, activeSnapshot_eq, List.filter_filter]
      symm
      apply List.filter_congr
      intro x hx
      simp [hnoid x hx]
  · have hsome : e.unsubscribe i = ⟨true, e.nextId, res⟩ := by
      unfold CEventSafe.unsubscribe
      rw [hm]
    refine ⟨?_, ?_, ?_, ?_, ?_, ?_⟩
    · rw [hsome]
      exact markInactiveFirst_length i e.callbacks res hm
    · intro hnoid
      exact absurd hm (by rw [(markInactiveFirst_eq_none_iff i e.callbacks).mpr hnoid]; simp)
    · rw [hsome]
      show CEventSafe.unsubscribe _ i = _
      unfold CEventSafe.unsubscribe
      rw [markInactiveFirst_idem i e.callbacks res hm]
    · intro _
      constructor
      · rw [hsome]
      · intro hnd en hen hid
        by_contra hact
        rw [Bool.not_eq_false] at hact
        have h1 : en ∈ res.filter (fun en => en.active) := by
          rw [hsome] at hen
          exact List.mem_filter.mpr ⟨hen, hact⟩
        rw [markInactiveFirst_filter_active i e.callbacks res hnd hm] at h1
        have h2 := (List.mem_filter.mp h1).2
        simp [hid] at h2
    · rw [hsome]
      exact markInactiveFirst_filter_ne i e.callbacks res hm
    · intro hnd
      rw [activeSnapshot_eq, activeSnapshot_eq, hsome]
      rw [markInactiveFirst_filter_active i e.callbacks res hnd hm]
      rw [List.filter_filter]
      apply List.filter_congr
      intro x _
      rw [Bool.and_comm]

/-- Witness for C7, at a concrete input: a hub with two active entries (ids 0
and 1), unsubscribing id 0. -/
theorem C7_unsubscribe_witness :
    (((⟨false, 2, [⟨0, some 10, true⟩, ⟨1, some 11, true⟩]⟩ : CEventSafe).unsubscribe
        0).callbacks.length
      = (⟨false, 2, [⟨0, some 10, true⟩, ⟨1, some 11, true⟩]⟩ : CEventSafe).callbacks.length)
  ∧ (activeSnapshot ((⟨false, 2, [⟨0, some 10, true⟩, ⟨1, some 11, true⟩]⟩ : CEventSafe).unsubscribe 0)
      = (activeSnapshot (⟨false, 2, [⟨0, some 10, true⟩, ⟨1, some 11, true⟩]⟩ : CEventSafe)).filter
          (fun en => en.id != 0)) :=
  ⟨(C7_unsubscribe_is_tombstone_and_idempotent
      (⟨false, 2, [⟨0, some 10, true⟩, ⟨1, some 11, true⟩]⟩ : CEventSafe) 0).1,
   (C7_unsubscribe_is_tombstone_and_idempotent
      (⟨false, 2, [⟨0, some 10, true⟩, ⟨1, some 11, true⟩]⟩ : CEventSafe) 0).2.2.2.2.2
     (by decide)⟩

/-- Destroying the handle returned by a subscribe (given that all earlier
entry ids are below the id counter, the subscribe invariant) tombstones
exactly the entry that this subscribe appended. -/
theorem destroy_new_handle_state (e : CEventSafe) (cb : Callback)
    (hid : ∀ en ∈ e.callbacks, en.id < e.nextId) :
    Subscription.destroy ⟨true, (e.subscribe cb).2⟩ (e.subscribe cb).1
      = ⟨true, e.nextId + 1, e.callbacks ++ [⟨e.nextId, cb, false⟩]⟩ := by
  have hmark : markInactiveFirst e.nextId
      (e.callbacks ++ [⟨e.nextId, cb, true⟩])
      = some (e.callbacks ++ [⟨e.nextId, cb, false⟩]) := by
    have h := markInactiveFirst_append_fresh e.nextId e.callbacks
      ⟨e.nextId, cb, true⟩ (fun x hx => ne_of_lt (hid x hx)) rfl
    simpa using h
  show (⟨e.needsCleanup, e.nextId + 1,
      e.callbacks ++ [⟨e.nextId, cb, true⟩]⟩ : CEventSafe).unsubscribe e.nextId = _
  unfold CEventSafe.unsubscribe
  rw [hmark]

/-- The active snapshot after the just-subscribed entry has been tombstoned is
exactly the active entries of the original list. -/
theorem snapshot_after_destroy (e : CEventSafe) (cb : Callback) :
    activeSnapshot ⟨true, e.nextId + 1, e.callbacks ++ [⟨e.nextId, cb, false⟩]⟩
      = e.callbacks.filter (fun en => en.active) := by
  rw [activeSnapshot_eq]
  show (e.callbacks ++ [(⟨e.nextId, cb, false⟩ : CallbackEntry)]).filter _ = _
  simp [List.filter_append]

/-- The active snapshot right after a subscribe is the active entries of the
original list followed by the newly appended (active) entry. -/
theorem snapshot_after_subscribe (e : CEventSafe) (cb : Callback) :
    activeSnapshot (e.subscribe cb).1
      = e.callbacks.filter (fun en => en.active) ++ [⟨e.nextId, cb, true⟩] := by
  rw [activeSnapshot_eq]
  show (e.callbacks ++ [(⟨e.nextId, cb, true⟩ : CallbackEntry)]).filter _ = _
  simp [List.filter_append]

/-- Shared core of C5 and C4: once the handle returned by subscribing label
`l` (fresh with respect to the hub) is destroyed, no call of the next trigger
carries `l`. -/
theorem calls_after_drop_all_ne {α : Type} (e : CEventSafe) (l : Nat) (arg : α)
    (hid : ∀ en ∈ e.callbacks, en.id < e.nextId)
    (hl : ∀ en ∈ e.callbacks, en.callback ≠ some l) :
    ((Subscription.destroy ⟨true, (e.subscribe (some l)).2⟩
        (e.subscribe (some l)).1).trigger arg).2.calls.all
      (fun c => c.1 != l) = true := by
  rw [destroy_new_handle_state e (some l) hid]
  show (invokeEntries arg (activeSnapshot _)).calls.all (fun c => c.1 != l) = true
  rw [snapshot_after_destroy e (some l)]
  rw [List.all_eq_true]
  intro c hc
  obtain ⟨en, hen, hcb, -⟩ := invokeEntries_calls_sound arg _ c hc
  have hmem := (List.mem_filter.mp hen).1
  simp only [bne_iff_ne, ne_eq]
  intro heq
  exact hl en hmem (by rw [hcb, heq])

/-- When a list consists of active callable entries followed by one entry
carrying label `l`, the invocation loop performs the call `(l, arg)`. -/
theorem mem_calls_filter_append {α : Type} (arg : α) (xs : List CallbackEntry)
    (A : CallbackEntry) (l : Nat)
    (hact : ∀ en ∈ xs, en.active = true → en.callback.isSome = true)
    (hA : A.callback = some l) :
    (l, arg) ∈ (invokeEntries arg
      (xs.filter (fun en => en.active) ++ [A])).calls := by
  apply mem_invoke_calls
  · intro en hen
    rcases List.mem_append.mp hen with h | h
    · have hf := List.mem_filter.mp h
      exact hact en hf.1 hf.2
    · simp only [List.mem_singleton] at h
      subst h
      simp [hA]
  · exact ⟨A, List.mem_append_right _ (by simp), hA⟩

/-- Claim C5: for a live hub (satisfying the subscribe invariant that all
stored ids are below the id counter, and not already holding the fresh label
`l`), if the handle returned by `subscribe` is destroyed, the next `trigger`
performs no call carrying that callback. -/
theorem C5_dropped_handle_callback_not_invoked {α : Type} (e : CEventSafe)
    (l : Nat) (arg : α)
    (hid : ∀ en ∈ e.callbacks, en.id < e.nextId)
    (hl : ∀ en ∈ e.callbacks, en.callback ≠ some l) :
    ((Subscription.destroy ⟨true, (e.subscribe (some l)).2⟩
        (e.subscribe (some l)).1).trigger arg).2.calls.all
      (fun c => c.1 != l) = true :=
  calls_after_drop_all_ne e l arg hid hl

/-- Witness for C5, at a concrete input: a hub with one other active listener
(label 9, id 0); subscribe label 5, drop the handle, trigger. -/
theorem C5_dropped_handle_witness :
    ((Subscription.destroy
        ⟨true, ((⟨false, 1, [⟨0, some 9, true⟩]⟩ : CEventSafe).subscribe (some 5)).2⟩
        ((⟨false, 1, [⟨0, some 9, true⟩]⟩ : CEventSafe).subscribe (some 5)).1).trigger
      (3 : Nat)).2.calls.all (fun c => c.1 != 5) = true :=
  C5_dropped_handle_callback_not_invoked
    (⟨false, 1, [⟨0, some 9, true⟩]⟩ : CEventSafe) 5 (3 : Nat)
    (by decide) (by decide)

/-- Claim C4: moving a handle (by move construction or by move assignment)
never unsubscribes its registration and invalidates the source (id set to the
`-1` sentinel, weak reference cleared); destroying the moved-from handle is a
no-op; triggering after the move still invokes the callback; and only after
the surviving handle is destroyed does a subsequent trigger skip it (which is
also how unregistration happens exactly once even after repeated moves: every
moved-from handle is `⟨false, -1⟩`, whose destruction does nothing). -/
theorem C4_move_transfers_ownership_without_unsubscribing {α : Type}
    (e : CEventSafe) (l : Nat) (arg : α)
    (hid : ∀ en ∈ e.callbacks, en.id < e.nextId)
    (hact : ∀ en ∈ e.callbacks, en.active = true → en.callback.isSome = true)
    (hl : ∀ en ∈ e.callbacks, en.callback ≠ some l) :
    (Subscription.moveCtor ⟨true, (e.subscribe (some l)).2⟩
      = (⟨true, (e.subscribe (some l)).2⟩, ⟨false, -1⟩))
  ∧ (Subscription.moveAssign ⟨false, -1⟩ ⟨true, (e.subscribe (some l)).2⟩
      = (⟨true, (e.subscribe (some l)).2⟩, ⟨false, -1⟩))
  ∧ (Subscription.destroy ⟨false, -1⟩ (e.subscribe (some l)).1
      = (e.subscribe (some l)).1)
  ∧ ((l, arg) ∈ ((e.subscribe (some l)).1.trigger arg).2.calls)
  ∧ (((Subscription.destroy ⟨true, (e.subscribe (some l)).2⟩
        (e.subscribe (some l)).1).trigger arg).2.calls.all
      (fun c => c.1 != l) = true) := by
  refine ⟨rfl, rfl, rfl, ?_, calls_after_drop_all_ne e l arg hid hl⟩
  show (l, arg) ∈ (invokeEntries arg (activeSnapshot (e.subscribe (some l)).1)).calls
  rw [snapshot_after_subscribe e (some l)]
  exact mem_calls_filter_append arg e.callbacks ⟨e.nextId, some l, true⟩ l hact rfl

/-- Witness for C4, at a concrete input: a hub with one other active listener
(label 9, id 0); subscribe label 5 (handle id 1), move the handle, trigger,
destroy the surviving handle, trigger again. -/
theorem C4_move_witness :
    ((5, 3) ∈ (((⟨false, 1, [⟨0, some 9, true⟩]⟩ : CEventSafe).subscribe
        (some 5)).1.trigger (3 : Nat)).2.calls)
  ∧ (((Subscription.destroy
        ⟨true, ((⟨false, 1, [⟨0, some 9, true⟩]⟩ : CEventSafe).subscribe (some 5)).2⟩
        ((⟨false, 1, [⟨0, some 9, true⟩]⟩ : CEventSafe).subscribe (some 5)).1).trigger
      (3 : Nat)).2.calls.all (fun c => c.1 != 5) = true) :=
  ⟨(C4_move_transfers_ownership_without_unsubscribing
      (⟨false, 1, [⟨0, some 9, true⟩]⟩ : CEventSafe) 5 (3 : Nat)
      (by decide) (by decide) (by decide)).2.2.2.1,
   (C4_move_transfers_ownership_without_unsubscribing
      (⟨false, 1, [⟨0, some 9, true⟩]⟩ : CEventSafe) 5 (3 : Nat)
      (by decide) (by decide) (by decide)).2.2.2.2⟩

/-- Destroying a handle whose weak reference is empty does nothing. -/
theorem destroy_noRef (i : Int) (x : CEventSafe) :
    Subscription.destroy ⟨false, i⟩ x = x := rfl

/-- The invocation record of a trigger is the invocation loop run on the
active snapshot. -/
theorem trigger_snd {α : Type} (e : CEventSafe) (arg : α) :
    (e.trigger arg).2 = invokeEntries arg (activeSnapshot e) := rfl

/-- The post-state of a trigger is the cleaned state. -/
theorem trigger_fst {α : Type} (e : CEventSafe) (arg : α) :
    (e.trigger arg).1 = cleanupPass e := rfl

/-- Cleanup of a hub whose flag is set filters out the inactive entries and
clears the flag. -/
theorem cleanupPass_true (m : Int) (ll : List CallbackEntry) :
    cleanupPass ⟨true, m, ll⟩ = ⟨false, m, ll.filter (fun en => en.active)⟩ := rfl

/-- Claim C9: move-assigning onto a handle that still owns a live
registration (here: handle A, bound to the id of the first subscribe)
overwrites its id without unsubscribing it.  The move itself touches no hub
state and leaves only the handles `⟨true, idB⟩` and the invalidated
`⟨false, -1⟩`, neither of which carries idA (idB ≠ idA); after both remaining
handles are destroyed, the entry of the first subscribe is still active: the
next trigger still invokes callback A, and so does the trigger after that —
no remaining handle can ever unsubscribe it. -/
theorem C9_move_assign_overwrites_live_registration {α : Type} (e : CEventSafe)
    (la lb : Nat) (arg : α)
    (hid : ∀ en ∈ e.callbacks, en.id < e.nextId)
    (hact : ∀ en ∈ e.callbacks, en.active = true → en.callback.isSome = true) :
    (Subscription.moveAssign ⟨true, (e.subscribe (some la)).2⟩
        ⟨true, ((e.subscribe (some la)).1.subscribe (some lb)).2⟩
      = (⟨true, ((e.subscribe (some la)).1.subscribe (some lb)).2⟩, ⟨false, -1⟩))
  ∧ (((e.subscribe (some la)).1.subscribe (some lb)).2 ≠ (e.subscribe (some la)).2)
  ∧ ((la, arg) ∈ ((Subscription.destroy ⟨false, -1⟩
        (Subscription.destroy
          ⟨true, ((e.subscribe (some la)).1.subscribe (some lb)).2⟩
          ((e.subscribe (some la)).1.subscribe (some lb)).1)).trigger arg).2.calls)
  ∧ ((la, arg) ∈ (((Subscription.destroy ⟨false, -1⟩
        (Subscription.destroy
          ⟨true, ((e.subscribe (some la)).1.subscribe (some lb)).2⟩
          ((e.subscribe (some la)).1.subscribe (some lb)).1)).trigger arg).1.trigger
        arg).2.calls) := by
  have hid1 : ∀ en ∈ (e.subscribe (some la)).1.callbacks,
      en.id < (e.subscribe (some la)).1.nextId := by
    intro en hen
    have hen2 : en ∈ e.callbacks ++ [(⟨e.nextId, some la, true⟩ : CallbackEntry)] := hen
    rcases List.mem_append.mp hen2 with h | h
    · have h3 := hid en h
      show en.id < e.nextId + 1
      omega
    · simp only [List.mem_singleton] at h
      subst h
      show e.nextId < e.nextId + 1
      omega
  have hdest := destroy_new_handle_state (e.subscribe (some la)).1 (some lb) hid1
  have hfil : (e.subscribe (some la)).1.callbacks.filter (fun en => en.active)
      = e.callbacks.filter (fun en => en.active)
        ++ [⟨e.nextId, some la, true⟩] := by
    show (e.callbacks ++ [(⟨e.nextId, some la, true⟩ : CallbackEntry)]).filter _ = _
    simp [List.filter_append]
  refine ⟨rfl, ?_, ?_, ?_⟩
  · show e.nextId + 1 ≠ e.nextId
    omega
  · rw [destroy_noRef, hdest, trigger_snd, snapshot_after_destroy, hfil]
    exact mem_calls_filter_append arg e.callbacks ⟨e.nextId, some la, true⟩ la hact rfl
  · rw [destroy_noRef, hdest, trigger_fst, cleanupPass_true, trigger_snd]
    have hll : (((e.subscribe (some la)).1.callbacks
        ++ [(⟨(e.subscribe (some la)).1.nextId, some lb, false⟩ : CallbackEntry)]).filter
          (fun en => en.active))
        = e.callbacks.filter (fun en => en.active)
          ++ [⟨e.nextId, some la, true⟩] := by
      rw [List.filter_append, hfil]
      simp
    show (la, arg) ∈ (invokeEntries arg
      ((((e.subscribe (some la)).1.callbacks
          ++ [(⟨(e.subscribe (some la)).1.nextId, some lb, false⟩ : CallbackEntry)]).filter
            (fun en => en.active)).filter (fun en => en.active))).calls
    rw [hll]
    have hff : ((e.callbacks.filter (fun en => en.active)
        ++ [(⟨e.nextId, some la, true⟩ : CallbackEntry)]).filter (fun en => en.active))
        = e.callbacks.filter (fun en => en.active)
          ++ [⟨e.nextId, some la, true⟩] := by
      simp [List.filter_append, List.filter_filter]
    rw [hff]
    exact mem_calls_filter_append arg e.callbacks ⟨e.nextId, some la, true⟩ la hact rfl

/-- Witness for C9, at a concrete input: on a fresh hub subscribe label 4
(id 0, owned by handle A) then label 6 (id 1, owned by handle B); after
`A = std::move(B)` the ids of the remaining handles differ from 0, and after
destroying both remaining handles a trigger still invokes callback 4. -/
theorem C9_move_assign_witness :
    (((CEventSafe.init.subscribe (some 4)).1.subscribe (some 6)).2
      ≠ (CEventSafe.init.subscribe (some 4)).2)
  ∧ ((4, 2) ∈ ((Subscription.destroy ⟨false, -1⟩
        (Subscription.destroy
          ⟨true, ((CEventSafe.init.subscribe (some 4)).1.subscribe (some 6)).2⟩
          ((CEventSafe.init.subscribe (some 4)).1.subscribe (some 6)).1)).trigger
        (2 : Nat)).2.calls) :=
  ⟨(C9_move_assign_overwrites_live_registration CEventSafe.init 4 6 (2 : Nat)
      (by decide) (by decide)).2.1,
   (C9_move_assign_overwrites_live_registration CEventSafe.init 4 6 (2 : Nat)
      (by decide) (by decide)).2.2.1⟩

end EventTemplates
